import Mathlib

/-!
# Verification of the document → Markdown conversion engine

Shallow embedding of `backend/services/process_pdf.py`:
`convert_pdf_to_md`, `convert_docx_to_md` and `convert_document_to_md`.

Python strings are modelled as Lean `String`; the decoded PyMuPDF
page dictionaries (`page.get_text("dict")`) are modelled as structured
values (`Span`, `Line`, `Block`, `Page`, `PdfDocument`); font sizes are
modelled as exact rationals (Python's binary floating point and the
tie-breaking mode of `round` are abstracted to exact decimal rounding,
which no theorem below depends on).  Python dicts with float keys are
modelled as insertion-ordered association lists.  `try/except` around
image extraction is modelled by `Option`: `none` stands for "the call
raised".

The bullet pattern at `process_pdf.py:146` contains the escape `\o`,
which Python 3 rejects: `re.match` raises
`re.error("bad escape \o at position 30")` whenever it is reached, that
is, for every non-empty assembled text line, and nothing catches it (the
enclosing `try` has only a `finally`).  The PDF emission pass is
therefore fallible and is embedded in `Except String`, `Except.error`
standing for the uncaught exception; the bullet and heading emission
code behind the match (lines 146–156) is unreachable, and only documents
all of whose assembled text lines are empty convert successfully.
-/

namespace PdfMd

/- `Rat.mul`, `Rat.add`, `Rat.sub` and `Rat.inv` are `@[irreducible]` in
Batteries, which blocks `decide` on concrete rationals; restore the
default reducibility locally so concrete documents evaluate. -/
attribute [local semireducible] Rat.mul Rat.add Rat.sub Rat.inv

/-- Python's whitespace class for `str` (the set used by `str.strip()`
and by `\s` in a Unicode pattern). -/
def isPyWS (c : Char) : Bool :=
  let n := c.toNat
  (9 ≤ n && n ≤ 13) || (28 ≤ n && n ≤ 31) || n == 32 || n == 133 || n == 160 ||
  n == 0x1680 || (0x2000 ≤ n && n ≤ 0x200A) || n == 0x2028 || n == 0x2029 ||
  n == 0x202F || n == 0x205F || n == 0x3000

/-- Drop the longest suffix of whitespace characters (helper for `str.strip()`). -/
def dropTrailWS : List Char → List Char
  | [] => []
  | c :: rest =>
    let r := dropTrailWS rest
    if r = [] then (if isPyWS c then [] else [c]) else c :: r

/-- Python `str.strip()` on the character list. -/
def pyStripList (l : List Char) : List Char :=
  dropTrailWS (l.dropWhile isPyWS)

/-- Python `str.strip()`. -/
def pyStrip (s : String) : String :=
  String.mk (pyStripList s.data)

/-- `_sanitize_md`: remove `\r` and expand each tab to four spaces. -/
def sanitizeChars : List Char → List Char
  | [] => []
  | c :: rest =>
    (if c = '\r' then [] else if c = '\t' then [' ', ' ', ' ', ' '] else [c]) ++
      sanitizeChars rest

/-- `_sanitize_md(text)`. -/
def sanitize_md (s : String) : String :=
  String.mk (sanitizeChars s.data)

/-- Python `str.lower()` (ASCII case mapping; the style names and
extensions in the claims are ASCII). -/
def pyLower (s : String) : String :=
  String.mk (s.data.map Char.toLower)

/-- Python `str.startswith(pre)`. -/
def strStartsWith (s pre : String) : Bool :=
  List.isPrefixOf pre.data s.data

/-- Python `str.endswith(suf)`. -/
def strEndsWith (s suf : String) : Bool :=
  List.isSuffixOf suf.data s.data

/-- `str.split(sep)` for a one-character separator (empty parts kept,
as in Python). -/
def splitOnChar (sep : Char) : List Char → List (List Char)
  | [] => [[]]
  | c :: rest =>
    let r := splitOnChar sep rest
    if c = sep then [] :: r
    else
      match r with
      | [] => [[c]]
      | h :: t => (c :: h) :: t

/-- `_wrap_emphasis(text, is_bold, is_italic)`. -/
def wrap_emphasis (text : String) (isBold isItalic : Bool) : String :=
  if text = "" then text
  else if isBold && isItalic then "***" ++ text ++ "***"
  else if isBold then "**" ++ text ++ "**"
  else if isItalic then "*" ++ text ++ "*"
  else text

/-- Substring containment, Python's `needle in hay`. -/
def strContains (hay needle : String) : Bool :=
  go needle.data hay.data
where
  go (n h : List Char) : Bool :=
    List.isPrefixOf n h ||
      match h with
      | [] => false
      | _ :: t => go n t

/-! ## The decoded PDF document model -/

/-- One span of `line["spans"]`: a run of text in one font.  A span whose
`"text"` key is missing or `None` is modelled with `text = ""` (the code
reads it as `span.get("text", "") or ""`); a missing / zero / `None`
`"size"` is modelled as `none` (the code reads `span.get("size", 0) or 0`). -/
structure Span where
  size : Option ℚ
  text : String
  font : String
deriving DecidableEq, Repr

/-- `span.get("size", 0) or 0`. -/
def effSize (s : Span) : ℚ := s.size.getD 0

/-- One entry of `block["lines"]`. -/
structure Line where
  spans : List Span
deriving DecidableEq, Repr

/-- The result of `doc.extract_image(xref)` when it does not raise:
`imageBytes = none` models a `"image"` value that is not `bytes`/`bytearray`,
`ext = none` a missing `"ext"` key (read as `img_dict.get("ext", "png")`). -/
structure ExtractedImage where
  imageBytes : Option (List Nat)
  ext : Option String
deriving DecidableEq, Repr

/-- One entry of `page_dict["blocks"]`.  `type 0` blocks carry lines of
spans; `type 1` blocks carry an image reference `xref`
(`block.get("image", {}).get("xref")`, `none` when missing) together with
what `doc.extract_image(xref)` would yield for it (`none` when the call
raises); any other block type is ignored by both passes. -/
inductive Block where
  | text (lines : List Line)
  | image (xref : Option Nat) (extraction : Option ExtractedImage)
  | other
deriving DecidableEq, Repr

/-- One page: the `"blocks"` list of `page.get_text("dict")`. -/
structure Page where
  blocks : List Block
deriving DecidableEq, Repr

/-- The decoded document: the ordered pages of an opened PDF. -/
structure PdfDocument where
  pages : List Page
deriving DecidableEq, Repr

/-- `round(x, 2)`: rounding to two decimal places. -/
def round2 (q : ℚ) : ℚ := ((round (q * 100) : ℤ) : ℚ) / 100

/-! ## The font-size histogram (first pass) -/

/-- `sizes[sz] = sizes.get(sz, 0) + 1` on an insertion-ordered
association list (a Python dict with ℚ keys). -/
def histIncr (m : List (ℚ × Nat)) (k : ℚ) : List (ℚ × Nat) :=
  match m with
  | [] => [(k, 1)]
  | (a, v) :: t => if a = k then (a, v + 1) :: t else (a, v) :: histIncr t k

/-- `m.get(k, d)` on the association list. -/
def histGetD (m : List (ℚ × Nat)) (k : ℚ) (d : Nat) : Nat :=
  match m with
  | [] => d
  | (a, v) :: t => if a = k then v else histGetD t k d

/-- The keys of the dict, in insertion order. -/
def histKeys (m : List (ℚ × Nat)) : List ℚ := m.map Prod.fst

/-- The lines of a `type 0` block (other block types contribute none). -/
def blockTextLines : Block → List Line
  | .text ls => ls
  | _ => []

/-- All lines of all `type 0` blocks of the document, in traversal order. -/
def allTextLines (d : PdfDocument) : List Line :=
  d.pages.flatMap fun p => p.blocks.flatMap blockTextLines

/-- All spans of all `type 0` blocks of the document, in traversal order:
the iteration sequence of both passes. -/
def allTextSpans (d : PdfDocument) : List Span :=
  (allTextLines d).flatMap Line.spans

/-- The rounded size of each visited span, in traversal order
(`round(float(span.get("size", 0) or 0), 2)`). -/
def spanSizeList (d : PdfDocument) : List ℚ :=
  (allTextSpans d).map fun sp => round2 (effSize sp)

/-- The first pass: build the font-size histogram `sizes` by one walk over
every span of every line of every `type 0` block of every page. -/
def collectSizes (d : PdfDocument) : List (ℚ × Nat) :=
  (spanSizeList d).foldl histIncr []

/-! ## The heading-level map -/

/-- `sorted(sizes.keys(), reverse=True)`: the distinct sizes in descending
order (the keys of a dict are distinct, so any comparison sort agrees). -/
def sortedSizesDesc (m : List (ℚ × Nat)) : List ℚ :=
  (histKeys m).insertionSort (fun a b => b ≤ a)

/-- `enumerate`: pair each element with its index, as an association list
in iteration order. -/
def enumHeading : Nat → List ℚ → List (ℚ × Nat)
  | _, [] => []
  | i, sz :: rest => (sz, i + 1) :: enumHeading (i + 1) rest

/-- `size_to_heading = {sz: idx + 1 for idx, sz in enumerate(unique_sizes[:3])}`. -/
def sizeToHeading (m : List (ℚ × Nat)) : List (ℚ × Nat) :=
  enumHeading 0 ((sortedSizesDesc m).take 3)

/-! ## Line assembly (second pass, `type 0` blocks) -/

/-- `line_sizes`: the rounded sizes of the spans with truthy text. -/
def lineSizes (ln : Line) : List ℚ :=
  ln.spans.filterMap fun sp =>
    if sp.text ≠ "" then some (round2 (effSize sp)) else none

/-- `dominant_size = max(line_sizes) if line_sizes else 0`. -/
def dominantSize (ln : Line) : ℚ :=
  match lineSizes ln with
  | [] => 0
  | h :: t => t.foldl max h

/-- The Markdown text contributed by one span: whitespace-only text is
kept verbatim, other text is emphasis-wrapped from its font name. -/
def spanMd (sp : Span) : String :=
  if pyStrip sp.text = "" then sp.text
  else
    let fontLower := pyLower sp.font
    let isBold := strContains fontLower "bold" || strContains fontLower "black"
    let isItalic := strContains fontLower "italic" || strContains fontLower "oblique"
    wrap_emphasis sp.text isBold isItalic

/-- `raw_line = _sanitize_md("".join(span_texts).strip())`. -/
def assembleRaw (ln : Line) : String :=
  sanitize_md (pyStrip (String.join (ln.spans.map spanMd)))

/-- `'#' * level`. -/
def hashes (level : Nat) : String := String.mk (List.replicate level '#')

/-- The message of the `re.error` raised when the bullet pattern
`r"^[•‣◦⁃\-\*\o]\s+"` is compiled: `\o` is an invalid escape in
Python 3, so the `re.match` call raises instead of matching. -/
def reBadEscapeMsg : String := "bad escape \\o at position 30"

/-- The processing of one assembled text line: an empty line is skipped
(`continue` at line 144); any non-empty line reaches
`re.match(r"^[...]\s+", raw_line)` at line 146, whose pattern contains
the invalid escape `\o` and therefore raises `re.error` — the bullet
rewriting and heading formatting behind it (lines 146–156) are
unreachable.  The heading level looked up for the line's dominant size
at line 121 is computed before the crash but never observed, so the map
`m` goes unused. -/
def formatTextLine (m : List (ℚ × Nat)) (ln : Line) : Except String (Option String) :=
  let raw := assembleRaw ln
  if raw = "" then Except.ok none
  else Except.error reBadEscapeMsg

/-! ## Image blocks -/

/-- The base64 alphabet. -/
def b64Alphabet : List Char :=
  "ABCDEFGHIJKLMNOPQRSTUVWXYZabcdefghijklmnopqrstuvwxyz0123456789+/".data

/-- One base64 digit. -/
def b64Char (n : Nat) : Char := b64Alphabet.getD n 'A'

/-- Standard base64 of a byte list (values 0–255), with padding. -/
def b64encodeList : List Nat → List Char
  | [] => []
  | [a] => [b64Char (a / 4), b64Char (a % 4 * 16), '=', '=']
  | [a, b] => [b64Char (a / 4), b64Char (a % 4 * 16 + b / 16), b64Char (b % 16 * 4), '=']
  | a :: b :: c :: rest =>
    b64Char (a / 4) :: b64Char (a % 4 * 16 + b / 16) ::
      b64Char (b % 16 * 4 + c / 64) :: b64Char (c % 64) :: b64encodeList rest

/-- `base64.b64encode(img_data).decode("ascii")`. -/
def b64encode (bs : List Nat) : String := String.mk (b64encodeList bs)

/-- `os.path.join(images_dir, img_name)` (POSIX form). -/
def osPathJoin (a b : String) : String :=
  if strStartsWith b "/" then b
  else if a = "" then b
  else if strEndsWith a "/" then a ++ b
  else a ++ "/" ++ b

/-- The Markdown line emitted for a successfully extracted image: a file
link when `images_dir` is given, an inline data URI otherwise.  (Writing
the bytes to disk is a side effect with no bearing on the returned
string.) -/
def imageLine (imagesDir : Option String) (pageNumber xref : Nat)
    (img : ExtractedImage) (bytes : List Nat) : String :=
  let imgExt := img.ext.getD "png"
  match imagesDir with
  | some dir =>
    "![image](" ++
      (osPathJoin dir
        ("page" ++ toString (pageNumber + 1) ++ "_img" ++ toString xref ++
          "." ++ imgExt) ++ ")")
  | none => "![image](" ++ ("data:image/" ++ imgExt ++ ";base64," ++ b64encode bytes ++ ")")

/-- The lines emitted for a `type 0` block's line list, stopped by the
raised `re.error` at the first non-empty assembled line. -/
def textBlockLines (m : List (ℚ × Nat)) : List Line → Except String (List String)
  | [] => Except.ok []
  | ln :: rest =>
    match formatTextLine m ln with
    | Except.error e => Except.error e
    | Except.ok none => textBlockLines m rest
    | Except.ok (some s) =>
      match textBlockLines m rest with
      | Except.error e => Except.error e
      | Except.ok l => Except.ok (s :: l)

/-- The Markdown lines contributed by one `type 1` block of the page
numbered `pageNumber` (0-based).  The block is skipped (`continue`) when
images are excluded, when its `xref` is falsy, when extraction raises, or
when the extracted payload is not a byte string; no exception escapes
the enclosing `try/except`. -/
def imageBlockLines (imagesDir : Option String) (includeImages : Bool)
    (pageNumber : Nat) (xref : Option Nat)
    (extraction : Option ExtractedImage) : List String :=
  if includeImages then
    match xref with
    | none => []
    | some x =>
      if x = 0 then []
      else
        match extraction with
        | none => []
        | some img =>
          match img.imageBytes with
          | none => []
          | some bs => [imageLine imagesDir pageNumber x img bs]
  else []

/-- The Markdown lines contributed by one block; a `type 0` block raises
at its first non-empty assembled line. -/
def blockLines (imagesDir : Option String) (includeImages : Bool)
    (m : List (ℚ × Nat)) (pageNumber : Nat) : Block → Except String (List String)
  | .text ls => textBlockLines m ls
  | .image xref extraction =>
    Except.ok (imageBlockLines imagesDir includeImages pageNumber xref extraction)
  | .other => Except.ok []

/-- The lines of a page's block list in source order, propagating the
raised error. -/
def pagesBlocksLines (imagesDir : Option String) (includeImages : Bool)
    (m : List (ℚ × Nat)) (pageNumber : Nat) : List Block → Except String (List String)
  | [] => Except.ok []
  | b :: rest =>
    match blockLines imagesDir includeImages m pageNumber b with
    | Except.error e => Except.error e
    | Except.ok l =>
      match pagesBlocksLines imagesDir includeImages m pageNumber rest with
      | Except.error e => Except.error e
      | Except.ok l2 => Except.ok (l ++ l2)

/-- The Markdown lines of one page. -/
def pageLines (imagesDir : Option String) (includeImages : Bool)
    (m : List (ℚ × Nat)) (pageNumber : Nat) (p : Page) : Except String (List String) :=
  pagesBlocksLines imagesDir includeImages m pageNumber p.blocks

/-- The page-break marker appended after every page but the last. -/
def pageBreakMarker : String := "\n---\n"

/-- The second pass: the loop `for page_number in range(total_pages)`,
appending `pageBreakMarker` when `page_number != total_pages - 1` and
stopping with the raised `re.error` as soon as a page hits one. -/
def emitPages (imagesDir : Option String) (includeImages : Bool)
    (m : List (ℚ × Nat)) (totalPages : Nat) : Nat → List Page → Except String (List String)
  | _, [] => Except.ok []
  | pn, p :: rest =>
    match pageLines imagesDir includeImages m pn p with
    | Except.error e => Except.error e
    | Except.ok l =>
      match emitPages imagesDir includeImages m totalPages (pn + 1) rest with
      | Except.error e => Except.error e
      | Except.ok l2 =>
        Except.ok ((l ++ if pn ≠ totalPages - 1 then [pageBreakMarker] else []) ++ l2)

/-- The full `md_lines` list accumulated by `convert_pdf_to_md`, when the
conversion returns at all. -/
def pdfMdLines (d : PdfDocument) (imagesDir : Option String)
    (includeImages : Bool) : Except String (List String) :=
  emitPages imagesDir includeImages (sizeToHeading (collectSizes d))
    d.pages.length 0 d.pages

/-- `convert_pdf_to_md`: `"\n".join(md_lines).strip()` when no exception
was raised, the propagated `re.error` otherwise. -/
def convert_pdf_to_md (d : PdfDocument) (imagesDir : Option String := none)
    (includeImages : Bool := true) : Except String String :=
  match pdfMdLines d imagesDir includeImages with
  | Except.error e => Except.error e
  | Except.ok lines => Except.ok (pyStrip (String.intercalate "\n" lines))

instance {e a : Type} [DecidableEq e] [DecidableEq a] : DecidableEq (Except e a)
  | .error x, .error y =>
    if h : x = y then .isTrue (by rw [h])
    else .isFalse (fun he => h (Except.error.inj he))
  | .error _, .ok _ => .isFalse Except.noConfusion
  | .ok _, .error _ => .isFalse Except.noConfusion
  | .ok x, .ok y =>
    if h : x = y then .isTrue (by rw [h])
    else .isFalse (fun he => h (Except.ok.inj he))

/-! ## The DOCX pipeline -/

/-- One `python-docx` paragraph: its text and its style's name
(`para.style.name if para.style else ""`; `none` models a `None` style). -/
structure Paragraph where
  text : String
  styleName : Option String
deriving DecidableEq, Repr

/-- Python `int` of a digit string (the digits of the style name). -/
def natFromDigits (l : List Char) : Nat :=
  l.foldl (fun n c => 10 * n + (c.toNat - 48)) 0

/-- The Markdown line emitted for one DOCX paragraph. -/
def docxParaLine (p : Paragraph) : String :=
  let text := pyStrip p.text
  if text = "" then ""
  else
    let styleName := p.styleName.getD ""
    if strStartsWith (pyLower styleName) "heading" then
      let digits := styleName.data.filter Char.isDigit
      let level := max 1 (min (if digits = [] then 1 else natFromDigits digits) 6)
      hashes level ++ " " ++ text
    else if strContains (pyLower styleName) "list" then "- " ++ text
    else text

/-- `convert_docx_to_md`: paragraph lines joined with a blank line and
trimmed (the `if line is not None` filter drops nothing, every entry
being a string). -/
def convert_docx_to_md (ps : List Paragraph) : String :=
  pyStrip (String.intercalate "\n\n" (ps.map docxParaLine))

/-! ## The dispatcher -/

/-- What opening the file at the given path yields under each decoder:
`none` models a decoder that raises (corrupt / wrong format). -/
structure FsFile where
  asPdf : Option PdfDocument
  asDocx : Option (List Paragraph)

/-- `PurePosixPath(path).name` modulo `.`/`..` components (pathlib drops
empty and `.` components and takes the last remaining one). -/
def pathName (path : String) : String :=
  (((splitOnChar '/' path.data).map String.mk).filter
    fun c => !(c == "" || c == ".")).getLastD ""

/-- The index of the last `.` in the list, if any. -/
def lastDotIdx : List Char → Option Nat
  | [] => none
  | c :: rest =>
    match lastDotIdx rest with
    | some j => some (j + 1)
    | none => if c = '.' then some 0 else none

/-- `PurePosixPath(path).suffix`: from the last dot of the name to its
end, provided that dot is neither the first nor the last character. -/
def pathSuffix (path : String) : String :=
  let l := (pathName path).data
  match lastDotIdx l with
  | some i => if 0 < i && i + 1 < l.length then String.mk (l.drop i) else ""
  | none => ""

/-- The message of the `ValueError` raised on an unsupported extension. -/
def unsupportedMsg : String :=
  "Unsupported file type. Only PDF and DOCX files are supported."

/-- The message standing for a fatal decoder failure (`fitz.open` or
`Document(...)` raising on an undecodable file). -/
def openFailedMsg : String := "failed to open document"

/-- `convert_document_to_md`: select the pipeline by the lowercased
extension; any other extension is rejected before any decoding attempt. -/
def convert_document_to_md (path : String) (file : FsFile)
    (imagesDir : Option String := none) (includeImages : Bool := true) :
    Except String String :=
  let ext := pyLower (pathSuffix path)
  if ext = ".pdf" then
    match file.asPdf with
    | some d => convert_pdf_to_md d imagesDir includeImages
    | none => .error openFailedMsg
  else if ext = ".docx" then
    match file.asDocx with
    | some ps => .ok (convert_docx_to_md ps)
    | none => .error openFailedMsg
  else .error unsupportedMsg


/-! ## Further definitions used by the statements -/

/-- The number of (possibly overlapping) occurrences of `pat` in a
character list: the number of suffixes having `pat` as a prefix. -/
def countSubOccs (pat : List Char) : List Char → Nat
  | [] => 0
  | c :: rest =>
    (if List.isPrefixOf pat (c :: rest) then 1 else 0) + countSubOccs pat rest

/-- Occurrences of the page-break marker in a string. -/
def markerOccurrences (s : String) : Nat :=
  countSubOccs pageBreakMarker.data s.data

/-- Sum of the histogram's counts. -/
def histTotal (m : List (ℚ × Nat)) : Nat := (m.map Prod.snd).sum

/-! ## Concrete documents used by counterexamples and witnesses -/

/-- One page, one text line, a single font size `12`. -/
def exDocSingleSize : PdfDocument :=
  ⟨[⟨[Block.text [⟨[⟨some 12, "Hello", ""⟩]⟩]]⟩]⟩

/-- Two pages, both without blocks: the conversion succeeds and only the
marker between the pages survives up to the final trim. -/
def exDocTwoBlocklessPages : PdfDocument := ⟨[⟨[]⟩, ⟨[]⟩]⟩

/-- Two pages whose only span carries no text: a single histogram key
and a successful conversion that emits only the page-break marker. -/
def exDocEmptyTextTwoPages : PdfDocument :=
  ⟨[⟨[Block.text [⟨[⟨some 12, "", ""⟩]⟩]]⟩, ⟨[]⟩]⟩

/-- One line whose size-33 span carries no text and whose size-12 span
carries the text. -/
def exDocEmptyTextRun : PdfDocument :=
  ⟨[⟨[Block.text [⟨[⟨some 33, "", ""⟩, ⟨some 12, "hi", ""⟩]⟩]]⟩]⟩

/-- Four distinct sizes 40, 30, 20, 10 on four lines. -/
def exDocFourSizes : PdfDocument :=
  ⟨[⟨[Block.text
    [⟨[⟨some 40, "a", ""⟩]⟩, ⟨[⟨some 30, "b", ""⟩]⟩,
     ⟨[⟨some 20, "c", ""⟩]⟩, ⟨[⟨some 10, "d", ""⟩]⟩]]⟩]⟩

/-- A line whose assembled text is a bullet-glyph line. -/
def exLineBullet : Line := ⟨[⟨some 12, "\u2022 hi", ""⟩]⟩

/-- A line whose assembled text starts with the letter `o` and a space. -/
def exLineOh : Line := ⟨[⟨some 12, "o hi", ""⟩]⟩

/-! ## Order instances for the descending sort -/

instance : IsTotal ℚ (fun a b : ℚ => b ≤ a) := ⟨fun a b => le_total b a⟩

instance : IsTrans ℚ (fun a b : ℚ => b ≤ a) := ⟨fun _ _ _ h1 h2 => le_trans h2 h1⟩

instance : IsAntisymm ℚ (fun a b : ℚ => b < a) :=
  ⟨fun _ b h1 h2 => absurd (lt_trans h1 h2) (lt_irrefl b)⟩


/-! ## Histogram lemmas -/

theorem histGetD_histIncr (m : List (ℚ × Nat)) (k j : ℚ) :
    histGetD (histIncr m k) j 0 = histGetD m j 0 + (if j = k then 1 else 0) := by
  induction m with
  | nil =>
    simp only [histIncr, histGetD]
    by_cases h : k = j
    · subst h; simp
    · rw [if_neg h, if_neg fun e => h e.symm]
  | cons p t ih =>
    obtain ⟨a, v⟩ := p
    simp only [histIncr]
    by_cases hak : a = k
    · rw [if_pos hak]
      simp only [histGetD]
      by_cases haj : a = j
      · rw [if_pos haj, if_pos haj, if_pos (haj.symm.trans hak)]
      · rw [if_neg haj, if_neg haj, if_neg fun e => haj (hak.trans e.symm)]
        omega
    · rw [if_neg hak]
      simp only [histGetD]
      by_cases haj : a = j
      · rw [if_pos haj, if_pos haj, if_neg fun e => hak (haj.trans e)]
        omega
      · rw [if_neg haj, if_neg haj]; exact ih

theorem histGetD_foldl (L : List ℚ) (m : List (ℚ × Nat)) (k : ℚ) :
    histGetD (L.foldl histIncr m) k 0 = histGetD m k 0 + L.count k := by
  induction L generalizing m with
  | nil => simp
  | cons x t ih =>
    rw [List.foldl_cons, ih, histGetD_histIncr]
    by_cases h : k = x
    · subst h
      rw [if_pos rfl, List.count_cons_self]
      omega
    · rw [if_neg h, List.count_cons_of_ne h]
      omega

theorem histGetD_collectSizes (d : PdfDocument) (sz : ℚ) :
    histGetD (collectSizes d) sz 0 = (spanSizeList d).count sz := by
  have h := histGetD_foldl (spanSizeList d) [] sz
  simpa [collectSizes, histGetD] using h

theorem mem_histKeys_histIncr (m : List (ℚ × Nat)) (k j : ℚ) :
    j ∈ histKeys (histIncr m k) ↔ j ∈ histKeys m ∨ j = k := by
  induction m with
  | nil => simp [histIncr, histKeys]
  | cons p t ih =>
    obtain ⟨a, v⟩ := p
    by_cases hak : a = k
    · subst hak
      simp [histIncr, histKeys]
      tauto
    · simp only [histIncr, if_neg hak, histKeys, List.map_cons, List.mem_cons]
      simp only [histKeys] at ih
      rw [ih]
      tauto

theorem mem_histKeys_foldl (L : List ℚ) (m : List (ℚ × Nat)) (j : ℚ) :
    j ∈ histKeys (L.foldl histIncr m) ↔ j ∈ histKeys m ∨ j ∈ L := by
  induction L generalizing m with
  | nil => simp
  | cons x t ih =>
    rw [List.foldl_cons, ih, mem_histKeys_histIncr, List.mem_cons]
    tauto

theorem mem_histKeys_collectSizes (d : PdfDocument) (j : ℚ) :
    j ∈ histKeys (collectSizes d) ↔ j ∈ spanSizeList d := by
  have h := mem_histKeys_foldl (spanSizeList d) [] j
  simpa [collectSizes, histKeys] using h

theorem nodup_histKeys_histIncr (m : List (ℚ × Nat)) (k : ℚ)
    (h : (histKeys m).Nodup) : (histKeys (histIncr m k)).Nodup := by
  induction m with
  | nil => simp [histIncr, histKeys]
  | cons p t ih =>
    obtain ⟨a, v⟩ := p
    simp only [histKeys, List.map_cons, List.nodup_cons] at h
    by_cases hak : a = k
    · subst hak
      have hstep : histIncr ((a, v) :: t) a = (a, v + 1) :: t := by
        simp [histIncr]
      rw [hstep]
      simp only [histKeys, List.map_cons, List.nodup_cons]
      exact h
    · simp only [histIncr, if_neg hak, histKeys, List.map_cons, List.nodup_cons]
      refine ⟨?_, ih h.2⟩
      intro hmem
      rcases (mem_histKeys_histIncr t k a).1 hmem with h1 | h1
      · exact h.1 h1
      · exact hak h1

theorem nodup_histKeys_foldl (L : List ℚ) (m : List (ℚ × Nat))
    (h : (histKeys m).Nodup) : (histKeys (L.foldl histIncr m)).Nodup := by
  induction L generalizing m with
  | nil => exact h
  | cons x t ih => exact ih _ (nodup_histKeys_histIncr m x h)

theorem nodup_histKeys_collectSizes (d : PdfDocument) :
    (histKeys (collectSizes d)).Nodup :=
  nodup_histKeys_foldl (spanSizeList d) [] (by simp [histKeys])

theorem histTotal_histIncr (m : List (ℚ × Nat)) (k : ℚ) :
    histTotal (histIncr m k) = histTotal m + 1 := by
  induction m with
  | nil => simp [histIncr, histTotal]
  | cons p t ih =>
    obtain ⟨a, v⟩ := p
    by_cases hak : a = k
    · simp [histIncr, hak, histTotal]
      omega
    · simp only [histIncr, if_neg hak, histTotal, List.map_cons, List.sum_cons]
      simp only [histTotal] at ih
      omega

theorem histTotal_foldl (L : List ℚ) (m : List (ℚ × Nat)) :
    histTotal (L.foldl histIncr m) = histTotal m + L.length := by
  induction L generalizing m with
  | nil => simp
  | cons x t ih =>
    rw [List.foldl_cons, ih, histTotal_histIncr]
    simp
    omega

theorem histTotal_collectSizes (d : PdfDocument) :
    histTotal (collectSizes d) = (allTextSpans d).length := by
  have h := histTotal_foldl (spanSizeList d) []
  simpa [collectSizes, histTotal, spanSizeList] using h

/-! ## Claim C6 -/

/-- C6 counterexample: in `exDocEmptyTextRun` the size 33 occurs only in a
run carrying no text, yet the histogram contains the key 33 with count 1 —
the first pass counts every run, with or without text. -/
theorem C6_counterexample :
    histGetD (collectSizes exDocEmptyTextRun) 33 0 = 1 ∧
    (∀ sp ∈ allTextSpans exDocEmptyTextRun,
      round2 (effSize sp) = 33 → sp.text = "") := by
  decide

/-- C6 (amended): the Font-Size Histogram pass visits every Run of every
Line of every text Block of every Page exactly once before any line is
emitted, rounding each Run's font size to 2 decimal places and
incrementing that size's count — every visited Run is counted, whether or
not it carries text: the count of each size equals its number of
occurrences among the rounded sizes of the visited Runs, a size is a key
iff some visited Run has it (so a document with only image blocks has an
empty histogram), and the counts sum to the total number of visited Runs. -/
theorem C6_every_run_counted (d : PdfDocument) (sz : ℚ) :
    histGetD (collectSizes d) sz 0 = (spanSizeList d).count sz ∧
    (sz ∈ histKeys (collectSizes d) ↔ sz ∈ spanSizeList d) ∧
    histTotal (collectSizes d) = (allTextSpans d).length :=
  ⟨histGetD_collectSizes d sz, mem_histKeys_collectSizes d sz,
    histTotal_collectSizes d⟩

/-! ## Shape of the lines of a successful conversion -/

theorem string_data_append (a b : String) : (a ++ b).data = a.data ++ b.data := by
  cases a
  cases b
  rfl

theorem formatTextLine_cases (m : List (ℚ × Nat)) (ln : Line) :
    (assembleRaw ln = "" ∧ formatTextLine m ln = Except.ok none) ∨
    (assembleRaw ln ≠ "" ∧ formatTextLine m ln = Except.error reBadEscapeMsg) := by
  by_cases h : assembleRaw ln = ""
  · exact Or.inl ⟨h, by simp [formatTextLine, h]⟩
  · exact Or.inr ⟨h, by simp [formatTextLine, h]⟩

theorem formatTextLine_error (m : List (ℚ × Nat)) (ln : Line)
    (h : assembleRaw ln ≠ "") :
    formatTextLine m ln = Except.error reBadEscapeMsg := by
  simp [formatTextLine, h]

theorem textBlockLines_ok_nil (m : List (ℚ × Nat)) :
    ∀ (ls : List Line) (l : List String),
    textBlockLines m ls = Except.ok l → l = []
  | [], l, h => by
    simpa [textBlockLines] using h.symm
  | ln :: rest, l, h => by
    rcases formatTextLine_cases m ln with ⟨_, hf⟩ | ⟨_, hf⟩
    · simp only [textBlockLines, hf] at h
      exact textBlockLines_ok_nil m rest l h
    · simp [textBlockLines, hf] at h

theorem imageBlockLines_shape (imagesDir : Option String) (includeImages : Bool)
    (pn : Nat) (xref : Option Nat) (extraction : Option ExtractedImage) :
    ∀ s ∈ imageBlockLines imagesDir includeImages pn xref extraction,
    ∃ r, s = "![image](" ++ r := by
  intro s hs
  cases includeImages with
  | false => simp [imageBlockLines] at hs
  | true =>
    rcases xref with _ | x
    · simp [imageBlockLines] at hs
    · by_cases hx : x = 0
      · simp [imageBlockLines, hx] at hs
      · rcases extraction with _ | img
        · simp [imageBlockLines, hx] at hs
        · rcases himg : img.imageBytes with _ | bs
          · simp [imageBlockLines, hx, himg] at hs
          · simp only [imageBlockLines, himg, if_neg hx, if_true] at hs
            have hs2 : s = imageLine imagesDir pn x img bs := by
              simpa using hs
            subst hs2
            cases imagesDir with
            | none => exact ⟨_, rfl⟩
            | some dir => exact ⟨_, rfl⟩

theorem blockLines_ok_shape (imagesDir : Option String) (includeImages : Bool)
    (m : List (ℚ × Nat)) (pn : Nat) (b : Block) (l : List String)
    (h : blockLines imagesDir includeImages m pn b = Except.ok l) :
    ∀ s ∈ l, ∃ r, s = "![image](" ++ r := by
  cases b with
  | text ls =>
    have hnil := textBlockLines_ok_nil m ls l (by simpa [blockLines] using h)
    subst hnil
    intro s hs
    simp at hs
  | image xref extraction =>
    have hl : imageBlockLines imagesDir includeImages pn xref extraction = l := by
      simpa [blockLines] using h
    intro s hs
    rw [← hl] at hs
    exact imageBlockLines_shape imagesDir includeImages pn xref extraction s hs
  | other =>
    have hnil : ([] : List String) = l := by
      simpa [blockLines] using h
    intro s hs
    rw [← hnil] at hs
    simp at hs

theorem pagesBlocksLines_ok_shape (imagesDir : Option String)
    (includeImages : Bool) (m : List (ℚ × Nat)) (pn : Nat) :
    ∀ (bs : List Block) (l : List String),
    pagesBlocksLines imagesDir includeImages m pn bs = Except.ok l →
    ∀ s ∈ l, ∃ r, s = "![image](" ++ r
  | [], l, h => by
    have h0 : ([] : List String) = l := by
      simpa [pagesBlocksLines] using h
    intro s hs
    rw [← h0] at hs
    simp at hs
  | b :: rest, l, h => by
    rcases hb : blockLines imagesDir includeImages m pn b with e | lb
    · simp [pagesBlocksLines, hb] at h
    · rcases hr : pagesBlocksLines imagesDir includeImages m pn rest with e | l2
      · simp [pagesBlocksLines, hb, hr] at h
      · simp only [pagesBlocksLines, hb, hr] at h
        have hl : lb ++ l2 = l := Except.ok.inj h
        intro s hs
        rw [← hl] at hs
        rcases List.mem_append.1 hs with h1 | h2
        · exact blockLines_ok_shape imagesDir includeImages m pn b lb hb s h1
        · exact pagesBlocksLines_ok_shape imagesDir includeImages m pn rest l2 hr s h2

theorem emitPages_ok_shape (imagesDir : Option String) (includeImages : Bool)
    (m : List (ℚ × Nat)) (total : Nat) :
    ∀ (ps : List Page) (pn : Nat) (l : List String),
    emitPages imagesDir includeImages m total pn ps = Except.ok l →
    ∀ s ∈ l, s = pageBreakMarker ∨ ∃ r, s = "![image](" ++ r
  | [], pn, l, h => by
    have h0 : ([] : List String) = l := by
      simpa [emitPages] using h
    intro s hs
    rw [← h0] at hs
    simp at hs
  | p :: rest, pn, l, h => by
    rcases hp : pageLines imagesDir includeImages m pn p with e | lp
    · simp [emitPages, hp] at h
    · rcases hr : emitPages imagesDir includeImages m total (pn + 1) rest with e | l2
      · simp [emitPages, hp, hr] at h
      · simp only [emitPages, hp, hr] at h
        have hl : (lp ++ if pn ≠ total - 1 then [pageBreakMarker] else []) ++ l2 = l :=
          Except.ok.inj h
        intro s hs
        rw [← hl] at hs
        rcases List.mem_append.1 hs with h1 | h2
        · rcases List.mem_append.1 h1 with h3 | h4
          · exact Or.inr (pagesBlocksLines_ok_shape imagesDir includeImages m pn
              p.blocks lp (by simpa [pageLines] using hp) s h3)
          · left
            by_cases hc : pn ≠ total - 1
            · rw [if_pos hc] at h4
              simpa using h4
            · rw [if_neg hc] at h4
              simp at h4
        · exact emitPages_ok_shape imagesDir includeImages m total rest (pn + 1) l2 hr s h2

theorem image_ne_marker (r : String) : "![image](" ++ r ≠ pageBreakMarker := by
  intro h
  have hdata := congrArg String.data h
  rw [string_data_append] at hdata
  have hm : pageBreakMarker.data = ['\n', '-', '-', '-', '\n'] := rfl
  have hi : ("![image](").data = '!' :: "[image](".data := rfl
  rw [hm, hi] at hdata
  simp only [List.cons_append] at hdata
  injection hdata with e1 e2
  exact absurd e1 (by decide)

theorem count_emitPages_ok (imagesDir : Option String) (includeImages : Bool)
    (m : List (ℚ × Nat)) (total : Nat) :
    ∀ (ps : List Page) (pn : Nat) (l : List String), pn + ps.length = total →
    emitPages imagesDir includeImages m total pn ps = Except.ok l →
    l.count pageBreakMarker = ps.length - 1
  | [], pn, l, hlen, h => by
    have h0 : ([] : List String) = l := by
      simpa [emitPages] using h
    rw [← h0]
    simp
  | p :: rest, pn, l, hlen, h => by
    rcases hp : pageLines imagesDir includeImages m pn p with e | lp
    · simp [emitPages, hp] at h
    · rcases hr : emitPages imagesDir includeImages m total (pn + 1) rest with e | l2
      · simp [emitPages, hp, hr] at h
      · simp only [emitPages, hp, hr] at h
        have hl : (lp ++ if pn ≠ total - 1 then [pageBreakMarker] else []) ++ l2 = l :=
          Except.ok.inj h
        rw [← hl, List.count_append, List.count_append]
        have hlp : lp.count pageBreakMarker = 0 := by
          rw [List.count_eq_zero]
          intro hmem
          obtain ⟨r, hrr⟩ := pagesBlocksLines_ok_shape imagesDir includeImages m pn
            p.blocks lp (by simpa [pageLines] using hp) pageBreakMarker hmem
          exact image_ne_marker r hrr.symm
        rw [hlp]
        cases rest with
        | nil =>
          have h0 : ([] : List String) = l2 := by
            simpa [emitPages] using hr
          have hpn : ¬pn ≠ total - 1 := by
            simp only [List.length_cons, List.length_nil] at hlen
            omega
          rw [if_neg hpn, ← h0]
          simp
        | cons q qs =>
          have hne : pn ≠ total - 1 := by
            simp only [List.length_cons] at hlen
            omega
          rw [if_pos hne]
          have hih := count_emitPages_ok imagesDir includeImages m total (q :: qs)
            (pn + 1) l2 (by simp only [List.length_cons] at hlen ⊢; omega) hr
          rw [hih]
          simp only [List.length_cons]
          have hcm : List.count pageBreakMarker [pageBreakMarker] = 1 := by simp
          rw [hcm]
          omega

/-! ## The descending sort of the histogram keys -/

theorem sorted_sortedSizesDesc (m : List (ℚ × Nat)) (h : (histKeys m).Nodup) :
    List.Sorted (fun a b : ℚ => b < a) (sortedSizesDesc m) := by
  have hs : List.Sorted (fun a b : ℚ => b ≤ a) (sortedSizesDesc m) :=
    List.sorted_insertionSort _ _
  have hperm : (sortedSizesDesc m).Perm (histKeys m) :=
    List.perm_insertionSort _ _
  have hnd : (sortedSizesDesc m).Nodup := hperm.nodup_iff.mpr h
  exact (hs.and hnd).imp fun hab => lt_of_le_of_ne hab.1 fun e => hab.2 e.symm

theorem eq_sortedSizesDesc (m : List (ℚ × Nat)) (L : List ℚ)
    (h : (histKeys m).Nodup) (hperm : L.Perm (histKeys m))
    (hsorted : List.Sorted (fun a b : ℚ => b < a) L) :
    L = sortedSizesDesc m :=
  List.eq_of_perm_of_sorted (hperm.trans (List.perm_insertionSort _ _).symm)
    hsorted (sorted_sortedSizesDesc m h)

/-- Behaviour of the enumerated top-3 association list over a strictly
descending key list `S`. -/
theorem headingMap_spec (S : List ℚ)
    (hs : List.Sorted (fun a b : ℚ => b < a) S) :
    (∀ i sz, S.get? i = some sz → i < 3 →
        histGetD (enumHeading 0 (S.take 3)) sz 0 = i + 1) ∧
    (∀ i sz, S.get? i = some sz → 3 ≤ i →
        histGetD (enumHeading 0 (S.take 3)) sz 0 = 0) ∧
    (∀ sz, sz ∉ S → histGetD (enumHeading 0 (S.take 3)) sz 0 = 0) ∧
    (∀ sz, histGetD (enumHeading 0 (S.take 3)) sz 0 ≤ 3) ∧
    (∀ sz, histGetD (enumHeading 0 (S.take 3)) sz 0 = 1 → S.get? 0 = some sz) ∧
    (∀ sz, histGetD (enumHeading 0 (S.take 3)) sz 0 = 2 → S.get? 1 = some sz) := by
  rcases S with _ | ⟨a, _ | ⟨b, _ | ⟨c, rest⟩⟩⟩
  · refine ⟨?_, ?_, ?_, ?_, ?_, ?_⟩ <;> simp [enumHeading, histGetD]
  · simp only [List.sorted_cons] at hs
    refine ⟨?_, ?_, ?_, ?_, ?_, ?_⟩
    · intro i sz h hi
      match i, h with
      | 0, h =>
        simp only [List.get?] at h
        cases h
        simp [enumHeading, histGetD]
    · intro i sz h hi
      match i, hi with
      | (n + 3), hi => simp [List.get?] at h
    · intro sz hsz
      simp only [List.mem_singleton] at hsz
      have hne2 : a ≠ sz := fun e => hsz e.symm
      simp [enumHeading, histGetD, hne2]
    · intro sz
      simp only [enumHeading, List.take, histGetD]
      split <;> omega
    · intro sz h
      simp only [enumHeading, List.take, histGetD] at h
      split at h
      · next heq => simp [heq]
      · omega
    · intro sz h
      simp only [enumHeading, List.take, histGetD] at h
      split at h <;> omega
  · simp only [List.sorted_cons, List.mem_cons, List.mem_singleton,
      List.not_mem_nil, or_false, forall_eq] at hs
    have hab : b < a := hs.1
    have hne : a ≠ b := ne_of_gt hab
    refine ⟨?_, ?_, ?_, ?_, ?_, ?_⟩
    · intro i sz h hi
      match i, h with
      | 0, h =>
        simp only [List.get?] at h
        cases h
        simp [enumHeading, histGetD]
      | 1, h =>
        simp only [List.get?] at h
        cases h
        simp [enumHeading, histGetD, hne]
    · intro i sz h hi
      match i, hi with
      | (n + 3), hi => simp [List.get?] at h
    · intro sz hsz
      simp only [List.mem_cons, List.not_mem_nil, or_false, not_or] at hsz
      have hn1 : a ≠ sz := fun e => hsz.1 e.symm
      have hn2 : b ≠ sz := fun e => hsz.2 e.symm
      simp [enumHeading, histGetD, hn1, hn2]
    · intro sz
      simp only [enumHeading, List.take, histGetD]
      split
      · omega
      · split <;> omega
    · intro sz h
      simp only [enumHeading, List.take, histGetD] at h
      split at h
      · next heq => simp [heq]
      · split at h <;> omega
    · intro sz h
      simp only [enumHeading, List.take, histGetD] at h
      split at h
      · omega
      · split at h
        · next heq => simp [heq]
        · omega
  · simp only [List.sorted_cons, List.mem_cons] at hs
    have hab : b < a := hs.1 b (Or.inl rfl)
    have hac : c < a := hs.1 c (Or.inr (Or.inl rfl))
    have harest : ∀ x ∈ rest, x < a := fun x hx => hs.1 x (Or.inr (Or.inr hx))
    have hbc : c < b := hs.2.1 c (Or.inl rfl)
    have hbrest : ∀ x ∈ rest, x < b := fun x hx => hs.2.1 x (Or.inr hx)
    have hcrest : ∀ x ∈ rest, x < c := hs.2.2.1
    have hmap : enumHeading 0 ((a :: b :: c :: rest).take 3) =
        [(a, 1), (b, 2), (c, 3)] := by
      simp [enumHeading]
    rw [hmap]
    refine ⟨?_, ?_, ?_, ?_, ?_, ?_⟩
    · intro i sz h hi
      match i, h with
      | 0, h =>
        simp only [List.get?] at h
        cases h
        simp [histGetD]
      | 1, h =>
        simp only [List.get?] at h
        cases h
        simp [histGetD, ne_of_gt hab]
      | 2, h =>
        simp only [List.get?] at h
        cases h
        simp [histGetD, ne_of_gt hac, ne_of_gt hbc]
    · intro i sz h hi
      match i, hi, h with
      | (n + 3), _, h =>
        have hmem : sz ∈ rest := by
          simp only [List.get?] at h
          exact List.get?_mem h
        have h1 : a ≠ sz := ne_of_gt (harest sz hmem)
        have h2 : b ≠ sz := ne_of_gt (hbrest sz hmem)
        have h3 : c ≠ sz := ne_of_gt (hcrest sz hmem)
        simp [histGetD, h1, h2, h3]
    · intro sz hsz
      simp only [List.mem_cons, not_or] at hsz
      have hn1 : a ≠ sz := fun e => hsz.1 e.symm
      have hn2 : b ≠ sz := fun e => hsz.2.1 e.symm
      have hn3 : c ≠ sz := fun e => hsz.2.2.1 e.symm
      simp [histGetD, hn1, hn2, hn3]
    · intro sz
      simp only [histGetD]
      split
      · omega
      · split
        · omega
        · split <;> omega
    · intro sz h
      simp only [histGetD] at h
      split at h
      · next heq => simp [heq]
      · split at h
        · omega
        · split at h <;> omega
    · intro sz h
      simp only [histGetD] at h
      split at h
      · omega
      · split at h
        · next heq => simp [heq]
        · split at h <;> omega

/-! ## Claim C2 -/

/-- C2: the Heading-Level Map is derived by sorting the histogram's
distinct size keys in descending numeric order — for any strictly
descending enumeration `L` of the keys, the largest size gets level 1,
the next level 2, the third level 3, every further size and every
unobserved size levels to 0, levels never exceed 3, and any size of
level 1 is strictly larger than any size of level 2.  At most 3 distinct
heading levels ever appear in PDF output, vacuously: a successful
conversion contains only page-break markers and image lines, because
every non-empty assembled text line raises at the invalid bullet escape
before any heading is emitted; and a line assigned level 1 (the
assignment at line 121 runs before that crash) has a strictly larger
dominant size than any line assigned level 2. -/
theorem C2_heading_level_map (d : PdfDocument) (L : List ℚ)
    (hperm : L.Perm (histKeys (collectSizes d)))
    (hsorted : List.Sorted (fun a b : ℚ => b < a) L) :
    (∀ i sz, L.get? i = some sz → i < 3 →
        histGetD (sizeToHeading (collectSizes d)) sz 0 = i + 1) ∧
    (∀ i sz, L.get? i = some sz → 3 ≤ i →
        histGetD (sizeToHeading (collectSizes d)) sz 0 = 0) ∧
    (∀ sz, sz ∉ histKeys (collectSizes d) →
        histGetD (sizeToHeading (collectSizes d)) sz 0 = 0) ∧
    (∀ sz, histGetD (sizeToHeading (collectSizes d)) sz 0 ≤ 3) ∧
    (∀ s1 s2, histGetD (sizeToHeading (collectSizes d)) s1 0 = 1 →
        histGetD (sizeToHeading (collectSizes d)) s2 0 = 2 → s2 < s1) ∧
    (∀ (imagesDir : Option String) (includeImages : Bool)
        (lines : List String) (s : String),
        pdfMdLines d imagesDir includeImages = Except.ok lines → s ∈ lines →
        s = pageBreakMarker ∨ ∃ r, s = "![image](" ++ r) ∧
    (∀ ln1 ln2 : Line,
        histGetD (sizeToHeading (collectSizes d)) (dominantSize ln1) 0 = 1 →
        histGetD (sizeToHeading (collectSizes d)) (dominantSize ln2) 0 = 2 →
        dominantSize ln2 < dominantSize ln1) := by
  have hnd := nodup_histKeys_collectSizes d
  have hL := eq_sortedSizesDesc (collectSizes d) L hnd hperm hsorted
  have hmap : sizeToHeading (collectSizes d) = enumHeading 0 (L.take 3) := by
    rw [sizeToHeading, ← hL]
  obtain ⟨h1, h2, h3, h4, h5, h6⟩ := headingMap_spec L hsorted
  have hstrict : ∀ s1 s2,
      histGetD (enumHeading 0 (L.take 3)) s1 0 = 1 →
      histGetD (enumHeading 0 (L.take 3)) s2 0 = 2 → s2 < s1 := by
    intro s1 s2 e1 e2
    have g1 := h5 s1 e1
    have g2 := h6 s2 e2
    obtain _ | ⟨x, _ | ⟨y, t⟩⟩ := L
    · simp at g1
    · simp [List.get?] at g2
    · simp only [List.get?, Option.some.injEq] at g1 g2
      rw [← g1, ← g2]
      simp only [List.sorted_cons] at hsorted
      exact hsorted.1 y (List.mem_cons_self _ _)
  rw [hmap]
  refine ⟨h1, h2, ?_, h4, hstrict, ?_,
    fun ln1 ln2 => hstrict (dominantSize ln1) (dominantSize ln2)⟩
  · intro sz hsz
    exact h3 sz fun hm => hsz (hperm.subset hm)
  · intro imagesDir includeImages lines s hok hmem
    simp only [pdfMdLines] at hok
    exact emitPages_ok_shape imagesDir includeImages
      (sizeToHeading (collectSizes d)) d.pages.length d.pages 0 lines hok s hmem

/-- C2 witness: in the four-size document, size 40 maps to level 1, 30
to level 2, 10 (the fourth largest) to level 0, and the level-2 size is
strictly below the level-1 size. -/
theorem C2_heading_level_map_witness :
    histGetD (sizeToHeading (collectSizes exDocFourSizes)) 40 0 = 1 ∧
    histGetD (sizeToHeading (collectSizes exDocFourSizes)) 30 0 = 2 ∧
    histGetD (sizeToHeading (collectSizes exDocFourSizes)) 10 0 = 0 ∧
    (30 : ℚ) < 40 := by
  have hk : histKeys (collectSizes exDocFourSizes) = [40, 30, 20, 10] := by
    decide
  have h := C2_heading_level_map exDocFourSizes [40, 30, 20, 10]
    (hk ▸ List.Perm.refl _) (by decide)
  refine ⟨h.1 0 40 rfl (by omega), h.1 1 30 rfl (by omega),
    h.2.1 3 10 rfl (by omega), ?_⟩
  exact h.2.2.2.2.1 40 30 (h.1 0 40 rfl (by omega)) (h.1 1 30 rfl (by omega))

/-! ## Claim C5 -/

/-- C5 counterexample: the style name `"Heading2Alt3"` carries the digit
characters `2` and `3`; the code concatenates them all (parsing `"23"`,
clamped to 6) and emits six hashes, where the claim's "first embedded
digit sequence" (`2`) would demand `"## x"`. -/
theorem C5_counterexample :
    docxParaLine ⟨"x", some "Heading2Alt3"⟩ = "###### x" ∧
    docxParaLine ⟨"x", some "Heading2Alt3"⟩ ≠ "## x" := by
  decide

/-- C5 (amended): a blank paragraph emits a blank line; a style name
starting (case-insensitively) with "heading" emits hashes whose level is
the number formed by concatenating all digit characters of the style name
(1 when there are none) clamped to [1, 6], then a space and the text; a
non-heading style containing "list" emits `"- "` plus the text; otherwise
the plain text is emitted.  `"Heading 2"` yields `"## "` and
`"List Bullet"` yields `"- "`. -/
theorem C5_docx_mapping (t : String) (sn : Option String) :
    (pyStrip t = "" → docxParaLine ⟨t, sn⟩ = "") ∧
    (pyStrip t ≠ "" → strStartsWith (pyLower (sn.getD "")) "heading" = true →
      docxParaLine ⟨t, sn⟩ =
        hashes (max 1 (min
          (if (sn.getD "").data.filter Char.isDigit = [] then 1
           else natFromDigits ((sn.getD "").data.filter Char.isDigit)) 6)) ++
          " " ++ pyStrip t) ∧
    (pyStrip t ≠ "" → strStartsWith (pyLower (sn.getD "")) "heading" = false →
      strContains (pyLower (sn.getD "")) "list" = true →
      docxParaLine ⟨t, sn⟩ = "- " ++ pyStrip t) ∧
    (pyStrip t ≠ "" → strStartsWith (pyLower (sn.getD "")) "heading" = false →
      strContains (pyLower (sn.getD "")) "list" = false →
      docxParaLine ⟨t, sn⟩ = pyStrip t) ∧
    docxParaLine ⟨"T", some "Heading 2"⟩ = "## T" ∧
    docxParaLine ⟨"T", some "List Bullet"⟩ = "- T" := by
  refine ⟨?_, ?_, ?_, ?_, by decide, by decide⟩
  · intro h
    simp [docxParaLine, h]
  · intro h1 h2
    simp [docxParaLine, h1, h2]
  · intro h1 h2 h3
    simp [docxParaLine, h1, h2, h3]
  · intro h1 h2 h3
    simp [docxParaLine, h1, h2, h3]

/-- C5 witness: style `"Heading 3"` on text `"x"` yields `"### x"`. -/
theorem C5_docx_mapping_witness :
    docxParaLine ⟨"x", some "Heading 3"⟩ = "### x" := by
  have h := (C5_docx_mapping "x" (some "Heading 3")).2.1 (by decide) (by decide)
  exact h.trans (by decide)

/-! ## Claim C7 -/

/-- C7: the dispatcher lowercases the path suffix; anything other than
`.pdf` and `.docx` is rejected at once with the unsupported-file-type
error and no pipeline runs, while `.pdf` and `.docx` select the
corresponding pipeline. -/
theorem C7_dispatcher (path : String) (file : FsFile) (imagesDir : Option String)
    (includeImages : Bool) :
    (pyLower (pathSuffix path) ≠ ".pdf" → pyLower (pathSuffix path) ≠ ".docx" →
      convert_document_to_md path file imagesDir includeImages =
        Except.error unsupportedMsg) ∧
    (pyLower (pathSuffix path) = ".pdf" →
      convert_document_to_md path file imagesDir includeImages =
        (match file.asPdf with
         | some d => convert_pdf_to_md d imagesDir includeImages
         | none => Except.error openFailedMsg)) ∧
    (pyLower (pathSuffix path) = ".docx" →
      convert_document_to_md path file imagesDir includeImages =
        (match file.asDocx with
         | some ps => Except.ok (convert_docx_to_md ps)
         | none => Except.error openFailedMsg)) := by
  refine ⟨?_, ?_, ?_⟩
  · intro h1 h2
    simp [convert_document_to_md, h1, h2]
  · intro h
    simp [convert_document_to_md, h]
  · intro h
    simp [convert_document_to_md, h]

/-- C7 witness: a `.txt` path is rejected with the unsupported-file-type
error; `.pdf` and (case-insensitively) `.DOCX` paths run the matching
pipeline. -/
theorem C7_dispatcher_witness :
    convert_document_to_md "report.txt" ⟨some exDocSingleSize, none⟩ none true =
      Except.error unsupportedMsg ∧
    convert_document_to_md "report.pdf" ⟨some exDocSingleSize, none⟩ none true =
      convert_pdf_to_md exDocSingleSize none true ∧
    convert_document_to_md "REPORT.DOCX" ⟨none, some []⟩ none true =
      Except.ok (convert_docx_to_md []) := by
  refine ⟨(C7_dispatcher "report.txt" ⟨some exDocSingleSize, none⟩ none true).1
    (by decide) (by decide), ?_, ?_⟩
  · exact ((C7_dispatcher "report.pdf" ⟨some exDocSingleSize, none⟩ none
      true).2.1 (by decide)).trans rfl
  · exact ((C7_dispatcher "REPORT.DOCX" ⟨none, some []⟩ none true).2.2
      (by decide)).trans rfl

/-! ## Claim C10 -/

/-- C10: conversion is deterministic — the output is a function of the
input document and the configuration alone, so two calls with the same
input and configuration return the same string. -/
theorem C10_determinism (path : String) (file : FsFile)
    (imagesDir1 imagesDir2 : Option String)
    (includeImages1 includeImages2 : Bool)
    (h1 : imagesDir1 = imagesDir2) (h2 : includeImages1 = includeImages2) :
    convert_document_to_md path file imagesDir1 includeImages1 =
      convert_document_to_md path file imagesDir2 includeImages2 := by
  rw [h1, h2]

/-- C10 witness: two identical calls on a concrete PDF agree. -/
theorem C10_determinism_witness :
    convert_document_to_md "a.pdf" ⟨some exDocSingleSize, none⟩ none true =
      convert_document_to_md "a.pdf" ⟨some exDocSingleSize, none⟩ none true :=
  C10_determinism "a.pdf" ⟨some exDocSingleSize, none⟩ none none true true
    rfl rfl



/-! ## Claim C1 -/

/-- C1: if the Font-Size Histogram has exactly one distinct size key, no
output line is heading-formatted — indeed no text line (plain, bullet or
heading) is ever emitted: any non-empty assembled line raises at the
invalid bullet escape before emission, so a conversion that returns at
all contains only page-break markers and image lines, none of which
starts with `#`. -/
theorem C1_single_size_no_headings (d : PdfDocument) (imagesDir : Option String)
    (includeImages : Bool) (lines : List String) (s : String)
    (_hone : (collectSizes d).length = 1)
    (hok : pdfMdLines d imagesDir includeImages = Except.ok lines)
    (hmem : s ∈ lines) :
    (s = pageBreakMarker ∨ ∃ r, s = "![image](" ++ r) ∧
    s.data.head? ≠ some '#' := by
  simp only [pdfMdLines] at hok
  have hshape := emitPages_ok_shape imagesDir includeImages
    (sizeToHeading (collectSizes d)) d.pages.length d.pages 0 lines hok s hmem
  refine ⟨hshape, ?_⟩
  rcases hshape with h | ⟨r, h⟩
  · subst h
    decide
  · subst h
    rw [string_data_append]
    have hi : ("![image](").data = '!' :: "[image](".data := rfl
    rw [hi]
    simp only [List.cons_append, List.head?_cons]
    decide

/-- C1 witness: the two-page single-size document whose only run carries
no text converts successfully to the single page-break marker line,
which is not heading-formatted. -/
theorem C1_single_size_no_headings_witness :
    (pageBreakMarker = pageBreakMarker ∨ ∃ r, pageBreakMarker = "![image](" ++ r) ∧
    pageBreakMarker.data.head? ≠ some '#' :=
  C1_single_size_no_headings exDocEmptyTextTwoPages none true [pageBreakMarker]
    pageBreakMarker (by decide) (by decide) (by decide)

/-! ## Claim C3 -/

/-- C3 counterexample: the two blockless pages convert without any
pipeline error, and after the final trim the output is `"---"`, which
contains zero occurrences of `"\n---\n"`, not the N−1 = 1 the claim
requires. -/
theorem C3_counterexample :
    exDocTwoBlocklessPages.pages.length = 2 ∧
    convert_pdf_to_md exDocTwoBlocklessPages none true = Except.ok "---" ∧
    markerOccurrences "---" = 0 := by
  decide

/-- C3 (amended): for every N-page PDF that converts without a pipeline
error, the page-break marker `"\n---\n"` is appended to the emitted line
list after every page except the last, so that list contains exactly
N−1 marker entries; the final string can nevertheless contain fewer
occurrences of the marker, because the final trim strips a boundary
marker's newlines when the first or last page emits no lines; a
zero-page PDF converts to the empty string. -/
theorem C3_page_break_markers (d : PdfDocument) (imagesDir : Option String)
    (includeImages : Bool) :
    (∀ lines, pdfMdLines d imagesDir includeImages = Except.ok lines →
      lines.count pageBreakMarker = d.pages.length - 1) ∧
    convert_pdf_to_md ⟨[]⟩ imagesDir includeImages = Except.ok "" := by
  refine ⟨?_, rfl⟩
  intro lines hok
  simp only [pdfMdLines] at hok
  exact count_emitPages_ok imagesDir includeImages
    (sizeToHeading (collectSizes d)) d.pages.length d.pages 0 lines (by omega) hok

/-- C3 witness: the two blockless pages emit exactly one marker entry
(N−1 = 1), and the zero-page document converts to the empty string. -/
theorem C3_page_break_markers_witness :
    List.count pageBreakMarker [pageBreakMarker] = 2 - 1 ∧
    convert_pdf_to_md ⟨[]⟩ none true = Except.ok "" := by
  refine ⟨?_, (C3_page_break_markers exDocTwoBlocklessPages none true).2⟩
  have h := (C3_page_break_markers exDocTwoBlocklessPages none true).1
    [pageBreakMarker] (by decide)
  exact h.trans (by decide)

/-! ## Claim C4 -/

/-- C4 (code bug): bullet normalization never happens.  The line `"• hi"`
assembles intact, but instead of being rewritten to `"- hi"` its
processing raises `re.error` — the bullet pattern's escape `\o` is
invalid in Python 3, so the pattern never compiles — and, whatever the
heading map, converting a document holding the line fails and produces
no output. -/
theorem C4_bullet_crash :
    assembleRaw exLineBullet = "• hi" ∧
    (∀ m : List (ℚ × Nat),
      formatTextLine m exLineBullet = Except.error reBadEscapeMsg) ∧
    convert_pdf_to_md ⟨[⟨[Block.text [exLineBullet]]⟩]⟩ none true =
      Except.error reBadEscapeMsg := by
  refine ⟨by decide, fun m => ?_, by decide⟩
  exact formatTextLine_error m exLineBullet (by decide)

/-! ## Claim C8 -/

/-- C8 (code bug): the failing image block itself is skipped silently —
zero lines, its exception swallowed — but the claim's 2-block scenario
still fails: the well-formed text block's non-empty line then raises
`re.error` at the bullet pattern, so an error IS raised and no output
containing the text block's line is produced. -/
theorem C8_image_skip_then_crash :
    blockLines none true [] 0 (Block.image (some 5) none) = Except.ok [] ∧
    pageLines none true [] 0
      ⟨[Block.image (some 5) none, Block.text [⟨[⟨some 12, "Hello", ""⟩]⟩]]⟩ =
      Except.error reBadEscapeMsg ∧
    convert_pdf_to_md
      ⟨[⟨[Block.image (some 5) none, Block.text [⟨[⟨some 12, "Hello", ""⟩]⟩]]⟩]⟩
      none true = Except.error reBadEscapeMsg := by
  decide

/-! ## Claim C9 -/

/-- C9 counterexample: the line `"o hi"` is not emitted as `"- hi"` — its
processing raises `re.error`, the pattern's `\o` being an invalid escape
in Python 3 rather than a match of the letter `o`. -/
theorem C9_counterexample :
    assembleRaw exLineOh = "o hi" ∧
    formatTextLine [] exLineOh = Except.error reBadEscapeMsg ∧
    formatTextLine [] exLineOh ≠ Except.ok (some "- hi") := by
  refine ⟨by decide, by decide, ?_⟩
  intro h
  have h2 : Except.error reBadEscapeMsg = Except.ok (some "- hi") :=
    (by decide : formatTextLine [] exLineOh =
      Except.error reBadEscapeMsg).symm.trans h
  exact Except.noConfusion h2

/-- C9 (amended): the character class of the bullet pattern does contain
the escape `\o`, but in Python 3 it is an invalid escape, not the
letter `o`: an assembled line beginning with `o` is never rewritten to
`"- "` plus a remainder — instead its processing raises
`re.error("bad escape \o")`, whatever the heading map, and the
conversion produces no output. -/
theorem C9_letter_o_crash (m : List (ℚ × Nat)) (ln : Line) (c : Char)
    (cs : List Char) (hdata : (assembleRaw ln).data = 'o' :: c :: cs) :
    formatTextLine m ln = Except.error reBadEscapeMsg := by
  refine formatTextLine_error m ln ?_
  intro e
  rw [e] at hdata
  simp at hdata

/-- C9 witness: the `"o hi"` line raises the bad-escape error. -/
theorem C9_letter_o_crash_witness :
    formatTextLine [] exLineOh = Except.error reBadEscapeMsg :=
  C9_letter_o_crash [] exLineOh ' ' ['h', 'i'] (by decide)


end PdfMd

